import Mathlib

/-!
Shallow embedding of the RNI measurement application
(`src/rni_app_v3.2.py`, with `src/app.py` as a sibling variant) and
verification of its specification claims.

Conventions of the embedding:
* Python floats are modelled as exact rationals (`ℚ`).  All the numeric
  expressions the claims mention are short arithmetic expressions whose
  operation structure is preserved, so statements proved over `ℚ` transfer
  to any fixed floating-point evaluation of the same expression.
* Pandas `NaN` / `None` cells are modelled as `Option.none`.
* Dates are day indices (`Nat`), times of day are seconds after midnight
  (`Nat`); `datetime.combine date time` is `date * 86400 + time` seconds.
* The two regular expressions of the source are embedded as character-list
  matchers implementing Python `re.search` semantics for those concrete
  patterns: leftmost match wins, quantifiers are greedy, and backtracking
  happens exactly where a later mandatory part of the pattern can fail.
-/

namespace RNI

/-- A raw cell value as it appears inside a spreadsheet cell or dataframe:
either a number or a piece of text.  `Option Val` is a cell that may be
missing (`none` models `NaN`). -/
inductive Val where
  | num : ℚ → Val
  | str : String → Val
deriving DecidableEq, Repr

/-! ## Character-level helpers shared by both regex embeddings -/

/-- Python `\d`: an ASCII decimal digit. -/
def pyDigit (c : Char) : Bool := c.isDigit

/-- Python `\s` (ASCII subset): space, tab, newline, CR, FF, VT. -/
def pySpace (c : Char) : Bool :=
  c = ' ' || c = '\t' || c = '\n' || c = '\r' || c = '\x0c' || c = '\x0b'

/-- The hemisphere letter class `[NnSsEeWwOo]` of the DMS pattern. -/
def hemiChar (c : Char) : Bool :=
  c = 'N' || c = 'n' || c = 'S' || c = 's' || c = 'E' || c = 'e' ||
  c = 'W' || c = 'w' || c = 'O' || c = 'o'

/-- Numeric value of a list of decimal digit characters (most significant
first), as a natural number. -/
def digitsVal (ds : List Char) : Nat :=
  ds.foldl (fun acc c => acc * 10 + (c.toNat - '0'.toNat)) 0

/-- Value of a fractional digit string: `fracVal "25" = 0.25`. -/
def fracVal (ds : List Char) : ℚ :=
  (digitsVal ds : ℚ) / (10 : ℚ) ^ ds.length

/-- Greedy `\d+`: the maximal leading run of digits, or `none` if the first
character is not a digit.  Returns the digits and the remaining input. -/
def takeDigits (cs : List Char) : Option (List Char × List Char) :=
  let ds := cs.takeWhile pyDigit
  if ds.isEmpty then none else some (ds, cs.drop ds.length)

/-- Greedy `\D+` followed by a mandatory digit context: consume the maximal
run of non-digits; fail if the run is empty.  (For the pattern fragment
`\D+\d` this is complete: a shorter run would leave a non-digit in front of
the following `\d`, so no backtracking is ever needed.) -/
def takeNonDigits (cs : List Char) : Option (List Char) :=
  let ns := cs.takeWhile (fun c => ¬ pyDigit c)
  if ns.isEmpty then none else some (cs.drop ns.length)

/-- Alternatives for the group `\d+(?:\.\d+)?` at the current position, in
the order Python tries them: with the optional fraction first (greedy),
then without it.  Each alternative is the numeric value of the matched text
paired with the rest of the input.  The inner `\d+` runs are maximal: the
character following each run is a non-digit, and the surrounding pattern
never forces them shorter. -/
def numGroupAlts (cs : List Char) : List (ℚ × List Char) :=
  match takeDigits cs with
  | none => []
  | some (ds, rest) =>
    match rest with
    | r0 :: rest2 =>
      if r0 = '.' then
        match takeDigits rest2 with
        | some (fs, rest3) =>
            [((digitsVal ds : ℚ) + fracVal fs, rest3), ((digitsVal ds : ℚ), rest)]
        | none => [((digitsVal ds : ℚ), rest)]
      else [((digitsVal ds : ℚ), rest)]
    | [] => [((digitsVal ds : ℚ), rest)]

/-! ## The numeric-extraction regex
`([-+]?\d+(?:\.\d+)?(?:[eE][-+]?\d+)?)` (used by
`extract_numeric_from_text` and as the bare-number fallback of
`parse_dms_to_decimal`).  Everything after the mandatory `\d+` is optional
and nothing follows the pattern, so the greedy matcher is deterministic. -/

/-- Optional sign `[-+]?` at the head of the input: the sign factor and the
input after it.  (When a sign is consumed but no digit follows, the
alternative of not consuming it fails as well, because a sign character is
not a digit; so no backtracking over this choice is needed.) -/
def signSplit (cs : List Char) : ℚ × List Char :=
  match cs with
  | c :: t => if c = '-' then (-1, t) else if c = '+' then (1, t) else (1, c :: t)
  | [] => (1, [])

/-- Match the signed-decimal-with-optional-exponent pattern at the current
position; return the value of the matched literal and the rest. -/
def matchNumAt (cs : List Char) : Option (ℚ × List Char) :=
  let s := signSplit cs
  match takeDigits s.2 with
  | none => none
  | some (ds, rest) =>
    -- (?:\.\d+)? greedy
    let mr : ℚ × List Char :=
      match rest with
      | r0 :: r2 =>
        if r0 = '.' then
          match takeDigits r2 with
          | some (fs, r3) => ((digitsVal ds : ℚ) + fracVal fs, r3)
          | none => ((digitsVal ds : ℚ), rest)
        else ((digitsVal ds : ℚ), rest)
      | [] => ((digitsVal ds : ℚ), rest)
    -- (?:[eE][-+]?\d+)? greedy
    let vr : ℚ × List Char :=
      match mr.2 with
      | e :: r4 =>
        if e = 'e' ∨ e = 'E' then
          let es : ℤ × List Char :=
            match r4 with
            | c :: t => if c = '-' then (-1, t) else if c = '+' then (1, t) else (1, c :: t)
            | [] => (1, [])
          match takeDigits es.2 with
          | some (eds, r6) =>
            (mr.1 * (10 : ℚ) ^ (es.1 * (digitsVal eds : ℤ)), r6)
          | none => (mr.1, mr.2)
        else (mr.1, mr.2)
      | [] => (mr.1, mr.2)
    some (s.1 * vr.1, vr.2)

/-- `re.search` for the numeric pattern: scan start positions left to
right, first successful match wins. -/
def searchNum : List Char → Option (ℚ × List Char)
  | [] => none
  | c :: t =>
    match matchNumAt (c :: t) with
    | some r => some r
    | none => searchNum t

/-! ## The DMS regex
`([+-]?\d+(?:\.\d+)?)\D+(\d+(?:\.\d+)?)\D+(\d+(?:\.\d+)?)\D*\s*([NnSsEeWwOo])?`.
Here a later mandatory `\D+`/`\d+` can fail, which forces backtracking over
the three optional-fraction choices; the trailing `\D*\s*(...)?` is fully
optional, so it is matched greedily with no backtracking, exactly as the
Python engine does. -/

/-- Match the full DMS pattern at the current position.  Returns the signed
degrees group, the minutes and seconds groups, and the captured hemisphere
letter (group 4), if any. -/
def matchDMSAt (cs : List Char) : Option (ℚ × ℚ × ℚ × Option Char) :=
  -- group 1: [+-]?\d+(?:\.\d+)?
  let s := signSplit cs
  let sgn := s.1
  let cs1 := s.2
  (numGroupAlts cs1).findSome? fun (d, r1) =>
    (takeNonDigits r1).bind fun r2 =>
      (numGroupAlts r2).findSome? fun (m, r3) =>
        (takeNonDigits r3).bind fun r4 =>
          (numGroupAlts r4).findSome? fun (s, r5) =>
            -- \D* (greedy), \s* (greedy), ([NnSsEeWwOo])? — all optional,
            -- so the first way they match is the way they stay matched.
            let r6 := r5.dropWhile (fun c => ¬ pyDigit c)
            let r7 := r6.dropWhile pySpace
            let hemi : Option Char :=
              match r7 with
              | c :: _ => if hemiChar c then some c else none
              | [] => none
            some (sgn * d, m, s, hemi)

/-- `re.search` for the DMS pattern. -/
def searchDMS : List Char → Option (ℚ × ℚ × ℚ × Option Char)
  | [] => none
  | c :: t =>
    match matchDMSAt (c :: t) with
    | some r => some r
    | none => searchDMS t

/-! ## Field coercion utilities (`parse_dms_to_decimal`,
`extract_numeric_from_text`, `pd.to_numeric`) -/

/-- Python `str.strip()`: remove leading and trailing whitespace. -/
def stripChars (cs : List Char) : List Char :=
  ((cs.dropWhile pySpace).reverse.dropWhile pySpace).reverse

/-- The `.replace(",", ".")` normalisation, as a character map. -/
def commaToDot (cs : List Char) : List Char :=
  cs.map fun c => if c = ',' then '.' else c

/-- Python `float(string)` on finite decimal literals:
`ws* [+-]? (digits [. digits?] | . digits) ([eE][+-]? digits)? ws*`,
parsed in full or rejected.  The `inf`/`nan` word forms (which have no
rational value) and digit-group underscores are outside the inputs any
claim exercises and are rejected here. -/
def pyFloatChars (cs0 : List Char) : Option ℚ :=
  let s := signSplit (cs0.dropWhile pySpace)
  let mantissa : Option (ℚ × List Char) :=
    match takeDigits s.2 with
    | some (ds, r) =>
      match r with
      | r0 :: r2 =>
        if r0 = '.' then
          match takeDigits r2 with
          | some (fs, r3) => some ((digitsVal ds : ℚ) + fracVal fs, r3)
          | none => some ((digitsVal ds : ℚ), r2)
        else some ((digitsVal ds : ℚ), r)
      | [] => some ((digitsVal ds : ℚ), r)
    | none =>
      match s.2 with
      | r0 :: r2 =>
        if r0 = '.' then (takeDigits r2).map fun fr => (fracVal fr.1, fr.2)
        else none
      | [] => none
  mantissa.bind fun mr =>
    let afterExp : Option (ℚ × List Char) :=
      match mr.2 with
      | e :: r2 =>
        if e = 'e' ∨ e = 'E' then
          let es : ℤ × List Char :=
            match r2 with
            | c :: t => if c = '-' then (-1, t) else if c = '+' then (1, t) else (1, c :: t)
            | [] => (1, [])
          match takeDigits es.2 with
          | some (ds, r4) => some (mr.1 * (10 : ℚ) ^ (es.1 * (digitsVal ds : ℤ)), r4)
          | none => none
        else some (mr.1, mr.2)
      | [] => some (mr.1, mr.2)
    afterExp.bind fun vr =>
      if (vr.2.dropWhile pySpace).isEmpty then some (s.1 * vr.1) else none

/-- `float(s)` for a string argument. -/
def pyFloat (s : String) : Option ℚ := pyFloatChars s.toList

/-- `parse_dms_to_decimal` (src/rni_app_v3.2.py:158-181).  `none` models a
`NaN` argument and a `NaN` result.
1. `pd.isna(val)` → NaN.
2. `float(val)` → the value itself when it is a number or a plain numeric
   string.
3. The DMS regex: on a match, `|deg| + min/60 + sec/3600`, negated when the
   captured hemisphere letter upper-cases to `S`, `W` or `O`.
4. The bare-number fallback regex.
5. Otherwise NaN. -/
def parse_dms_to_decimal (val : Option Val) : Option ℚ :=
  match val with
  | none => none
  | some (.num q) => some q
  | some (.str s) =>
    match pyFloat s with
    | some q => some q
    | none =>
      let cs := commaToDot (stripChars s.toList)
      match searchDMS cs with
      | some (d, m, sec, hemi) =>
        let dec := |d| + m / 60 + sec / 3600
        let h := hemi.map Char.toUpper
        some (if h = some 'S' ∨ h = some 'W' ∨ h = some 'O' then -dec else dec)
      | none =>
        match searchNum cs with
        | some (q, _) => some q
        | none => none

/-- One cell of `extract_numeric_from_text` (src/rni_app_v3.2.py:183-187)
applied to a text value: replace decimal commas by dots, take the first
substring matching the signed-decimal-with-optional-exponent pattern and
parse it; no match yields NaN, never an error. -/
def extract_numeric_cell (s : String) : Option ℚ :=
  (searchNum (commaToDot s.toList)).map (·.1)

/-- `extract_numeric_from_text` on one dataframe cell.  `astype(str)`
renders a `NaN` cell as the digit-free string `"nan"` (no match) and a
finite float as its decimal literal, which the pattern recovers in full and
`pd.to_numeric` parses back to the same value. -/
def extract_numeric_from_text_cell (cell : Option Val) : Option ℚ :=
  match cell with
  | none => none
  | some (.num q) => some q
  | some (.str s) => extract_numeric_cell s

/-- `extract_numeric_from_text` over a column. -/
def extract_numeric_from_text (col : List (Option Val)) : List (Option ℚ) :=
  col.map extract_numeric_from_text_cell

/-- `pd.to_numeric(·, errors="coerce")` on one cell: numbers pass through,
strings must parse as a full numeric literal, anything else coerces to
NaN. -/
def to_numeric_cell (cell : Option Val) : Option ℚ :=
  match cell with
  | none => none
  | some (.num q) => some q
  | some (.str s) => pyFloat s

/-! ## The master table and the Duration Aggregator -/

/-- One row of the master table, with the canonical columns the duration
and administration code reads (`Nombre Archivo`, `Fecha`, `Hora`,
`Localidad`, …).  `fecha` is a day index, `hora` seconds after midnight;
`none` models a `NaN` cell.  In this typed model the canonical columns
always exist, so the `"Fecha" in df.columns`-style guards of the source are
identically true. -/
structure Fila where
  ccte : Option String := none
  provincia : Option String := none
  localidad : Option String := none
  expediente : Option String := none
  nombreArchivo : String := ""
  fecha : Option Nat := none
  hora : Option Nat := none
  resultado : Option ℚ := none
  sonda : Option String := none
  lat : Option ℚ := none
  lon : Option ℚ := none
deriving DecidableEq, Repr

/-- Minimum of a nonempty list of times, as `Series.min` computes it. -/
def minHora (h : Nat) (t : List Nat) : Nat := t.foldl min h

/-- Maximum of a nonempty list of times, as `Series.max` computes it. -/
def maxHora (h : Nat) (t : List Nat) : Nat := t.foldl max h

/-- The per-(file, date) span of `calcular_tiempo_total_por_archivo`
(src/rni_app_v3.2.py:206-214): with `horas_validas` the non-null times of
the group, `delta = combine(fecha, max) - combine(fecha, min)` in seconds,
plus 24 hours when negative; an empty group contributes nothing. -/
def spanDia (horas : List Nat) : ℤ :=
  match horas with
  | [] => 0
  | h :: t =>
    if (maxHora h t : ℤ) - (minHora h t : ℤ) < 0
    then (maxHora h t : ℤ) - (minHora h t : ℤ) + 86400
    else (maxHora h t : ℤ) - (minHora h t : ℤ)

/-- `calcular_tiempo_total_por_archivo` (src/rni_app_v3.2.py:197-215): sum
of `spanDia` over the groups obtained by grouping on `Nombre Archivo` and
then on `Fecha` (pandas `groupby` visits each distinct key once and drops
null keys; the visiting order does not affect the sum).  Result in
seconds. -/
def calcular_tiempo_total_por_archivo (df : List Fila) : ℤ :=
  ((df.map (·.nombreArchivo)).dedup).foldl
    (fun total a =>
      let dfArchivo := df.filter fun r => r.nombreArchivo = a
      ((dfArchivo.filterMap (·.fecha)).dedup).foldl
        (fun tot f =>
          tot + spanDia ((dfArchivo.filter fun r => r.fecha = some f).filterMap (·.hora)))
        total)
    0

/-- The spec's per-group span, written from its words (§4.5 of the spec):
the distance from the minimum to the maximum non-null time of the group,
zero for a group with no valid times. -/
def specSpan (horas : List Nat) : ℤ :=
  match horas with
  | [] => 0
  | h :: t => (maxHora h t : ℤ) - (minHora h t : ℤ)

/-- The spec's duration contract, written from its words (§4.5 of the
spec): group by source file then by date, and sum the spans from the
minimum to the maximum non-null time of each group, a group with no valid
times contributing zero. -/
def duracionSegunSpec (df : List Fila) : ℤ :=
  ((df.map (·.nombreArchivo)).dedup).foldl
    (fun total a =>
      let dfArchivo := df.filter fun r => r.nombreArchivo = a
      ((dfArchivo.filterMap (·.fecha)).dedup).foldl
        (fun tot f =>
          tot + specSpan ((dfArchivo.filter fun r => r.fecha = some f).filterMap (·.hora)))
        total)
    0

/-! ## Locality deletion (`eliminar_localidad`, src/rni_app_v3.2.py:296-315) -/

/-- The user-visible outcome of `eliminar_localidad`: the empty-table
warning, the "locality not found" information message, or the success
message reporting how many rows were removed. -/
inductive AccionEliminar where
  | tablaVacia
  | noEncontrada
  | eliminada (n : Nat)
deriving DecidableEq, Repr

/-- `eliminar_localidad`: on an empty table, warn and change nothing; count
the rows whose `Localidad` equals the given name (a `NaN` locality equals
no string); if none, inform and change nothing; otherwise keep exactly the
rows whose `Localidad` differs (`NaN != s` is true in pandas, so null
localities survive), persist, and report the count.  The source's
missing-`Localidad`-column guard cannot arise in this typed model. -/
def eliminar_localidad (tabla : List Fila) (nombre : String) :
    List Fila × AccionEliminar :=
  if tabla.isEmpty then (tabla, .tablaVacia)
  else
    let eliminados := (tabla.filter fun r => r.localidad = some nombre).length
    if eliminados = 0 then (tabla, .noEncontrada)
    else (tabla.filter fun r => ¬ r.localidad = some nombre, .eliminada eliminados)

/-! ## Percentage of exposure limit and the colour scale -/

/-- The physical constant `0.20021` of the percentage formula, exactly. -/
def constLimite : ℚ := 20021 / 100000

/-- `max_resultado_pct` (src/rni_app_v3.2.py:688): percentage of the
exposure limit of a result value `r`, computed as
`r**2 / 3770 / 0.20021 * 100` with the source's operation order. -/
def max_resultado_pct (r : ℚ) : ℚ := r ^ 2 / 3770 / constLimite * 100

/-- The reference expression of the spec for `result = 87.0`:
`87² / 3770 / 0.20021 × 100`, written independently from the spec's
words. -/
def referenciaPct87 : ℚ := 87 ^ 2 / 3770 / (20021 / 100000) * 100

/-- Membership of a value in a bucket `(low, high)`: `low <= v < high`;
an upper bound of `none` models `float("inf")`. -/
def enRango (v : ℚ) (low : ℚ) (high : Option ℚ) : Bool :=
  low ≤ v && (match high with | some h => v < h | none => true)

/-- `rangos_colores` (src/rni_app_v3.2.py:826-831): the indicator's colour
scale, `(low, high, hex colour)` triples. -/
def rangos_colores : List (ℚ × Option ℚ × String) :=
  [(0, some 1, "#84C2F5"), (1, some 2, "#489DFF"), (2, some 4, "#006BD6"),
   (4, some 8, "#A9E7A9"), (8, some 15, "#89DD89"), (15, some 20, "#4D9623"),
   (20, some 35, "#D9FF00"), (35, some 50, "#F39A6D"), (50, some 100, "#E68200"),
   (100, none, "#CC0000")]

/-- `rangos_colores_map` (src/rni_app_v3.2.py:859-870): the map's colour
scale, `(low, high, RGB colour)` triples. -/
def rangos_colores_map : List (ℚ × Option ℚ × (Nat × Nat × Nat)) :=
  [(0, some 1, (132, 194, 245)), (1, some 2, (72, 157, 255)),
   (2, some 4, (0, 107, 214)), (4, some 8, (169, 231, 169)),
   (8, some 15, (137, 221, 137)), (15, some 20, (77, 150, 35)),
   (20, some 35, (217, 255, 0)), (35, some 50, (243, 154, 109)),
   (50, some 100, (230, 130, 0)), (100, none, (204, 0, 0))]

/-- `color_localidad` (src/rni_app_v3.2.py:832): the first indicator colour
whose bucket contains the percentage-of-limit value, `"#FFFFFF"` when no
bucket matches.  The enclosing `if max_resultado_pct and …` guard renders
it only for a truthy (non-null, non-zero) percentage. -/
def color_localidad (pct : ℚ) : String :=
  match rangos_colores.find? (fun r => enRango pct r.1 r.2.1) with
  | some r => r.2.2
  | none => "#FFFFFF"

/-- `color_semaforo` (src/rni_app_v3.2.py:872-878): the map point colour
for a record's raw `Resultado` value: grey for NaN, the first matching
bucket's RGB otherwise, black when no bucket matches. -/
def color_semaforo (valor : Option ℚ) : Nat × Nat × Nat :=
  match valor with
  | none => (200, 200, 200)
  | some v =>
    match rangos_colores_map.find? (fun r => enRango v r.1 r.2.1) with
    | some r => r.2.2
    | none => (0, 0, 0)

/-- Index (from `i`) of the first bucket of a boundary list containing
`v`. -/
def bucketIdxAux (v : ℚ) : List (ℚ × Option ℚ) → Nat → Option Nat
  | [], _ => none
  | r :: t, i => if enRango v r.1 r.2 then some i else bucketIdxAux v t (i + 1)

/-- Index of the first bucket of a boundary list containing `v`; the common
notion of "which bucket a value is assigned" used to compare the two
scales. -/
def bucketIdx (limites : List (ℚ × Option ℚ)) (v : ℚ) : Option Nat :=
  bucketIdxAux v limites 0

/-- The boundaries of a colour-scale table. -/
def limitesDe {α : Type} (tabla : List (ℚ × Option ℚ × α)) : List (ℚ × Option ℚ) :=
  tabla.map fun r => (r.1, r.2.1)

/-! ## Dataframes and the ingestion pipeline (`procesar_archivos`) -/

/-- A pandas dataframe: named columns and row-major cells.  Cells are
looked up positionally; a missing position reads as `NaN`. -/
structure DataFrame where
  headers : List String
  rows : List (List (Option Val))
deriving DecidableEq, Repr

/-- Cell `j` of a row (`NaN` beyond the row's end). -/
def cellAt (r : List (Option Val)) (j : Nat) : Option Val := r.getD j none

/-- Position of the first column with the given name. -/
def colIdx (df : DataFrame) (h : String) : Option Nat := df.headers.findIdx? (· = h)

/-- `df[h]`: the named column as a list of cells (empty if absent). -/
def getCol (df : DataFrame) (h : String) : List (Option Val) :=
  match colIdx df h with
  | some j => df.rows.map fun r => cellAt r j
  | none => []

/-- Pad a row with `NaN` up to width `n` (dataframes are rectangular). -/
def rowPad (r : List (Option Val)) (n : Nat) : List (Option Val) :=
  r ++ List.replicate (n - r.length) none

/-- `df[h] = v` for a scalar `v`: overwrite the column if it exists,
otherwise append it on the right. -/
def setColConst (df : DataFrame) (h : String) (v : Option Val) : DataFrame :=
  match colIdx df h with
  | some j => { df with rows := df.rows.map fun r => (rowPad r (j + 1)).set j v }
  | none =>
    { headers := df.headers ++ [h],
      rows := df.rows.map fun r => rowPad r df.headers.length ++ [v] }

/-- `df[h] = df[h].apply(f)` / column-wise transformation. -/
def mapCol (df : DataFrame) (h : String) (f : Option Val → Option Val) : DataFrame :=
  match colIdx df h with
  | some j => { df with rows := df.rows.map fun r => (rowPad r (j + 1)).set j (f (cellAt r j)) }
  | none => df

/-- `df.dropna(axis=1, how="all")`: keep the columns with at least one
non-null cell. -/
def dropnaCols (df : DataFrame) : DataFrame :=
  let keep := (List.range df.headers.length).filter
    fun j => df.rows.any fun r => (cellAt r j).isSome
  { headers := keep.filterMap fun j => df.headers.get? j,
    rows := df.rows.map fun r => keep.map fun j => cellAt r j }

/-- `df.drop(columns=[h], errors="ignore")`. -/
def dropCol (df : DataFrame) (h : String) : DataFrame :=
  let keep := (List.range df.headers.length).filter
    fun j => ¬ df.headers.getD j "" = h
  { headers := keep.filterMap fun j => df.headers.get? j,
    rows := df.rows.map fun r => keep.map fun j => cellAt r j }

/-- `needle` is a prefix of `hay` (character-wise). -/
def prefixOfChars : List Char → List Char → Bool
  | [], _ => true
  | _ :: _, [] => false
  | a :: as, b :: bs => a = b && prefixOfChars as bs

/-- `needle in hay` for character lists: substring containment. -/
def hasSubstr (needle : List Char) : List Char → Bool
  | [] => prefixOfChars needle []
  | c :: t => prefixOfChars needle (c :: t) || hasSubstr needle t

/-- Python's `cand in str(header).lower()` test (ASCII lower-casing,
character by character; every candidate and every header any claim
exercises is ASCII). -/
def lowerContains (header cand : String) : Bool :=
  hasSubstr cand.toList (header.toList.map Char.toLower)

/-- The index-column name fragments of `find_index_column`
(src/rni_app_v3.2.py:189-195). -/
def indexCandidates : List String :=
  ["índice", "indice", "index", "nro", "nº", "n°", "num", "numero", "#"]

/-- `find_index_column`: the first column whose lowered name contains one
of the index candidates. -/
def find_index_column (df : DataFrame) : Option String :=
  df.headers.find? fun c => indexCandidates.any (lowerContains c)

/-- `mapping_candidates` (src/rni_app_v3.2.py:244-251), in the source's
key order; `Lat`/`Lon` are the optional keys. -/
def mapping_candidates : List (String × List String) :=
  [("Fecha", ["fecha"]), ("Hora", ["hora", "time"]),
   ("Resultado", ["resultado con incertidumbre", "resultado"]),
   ("Sonda", ["sonda", "sonda utilizada"]),
   ("Lat", ["latitud", "lat"]), ("Lon", ["longitud", "lon"])]

/-- The first header matching any of a key's candidate fragments. -/
def findHeaderFor (headers : List String) (cands : List String) : Option String :=
  headers.find? fun c => cands.any (lowerContains c)

/-- The `columnas_map` loop (src/rni_app_v3.2.py:253-261): resolve keys in
order; a mandatory key (anything but `Lat`/`Lon`) with no matching header
aborts with `none` (the file-level warning-and-skip); an optional key with
no match is simply left out. -/
def buildColumnasMap : List (String × List String) → List String →
    Option (List (String × String))
  | [], _ => some []
  | (key, cands) :: rest, headers =>
    match findHeaderFor headers cands with
    | some c => (buildColumnasMap rest headers).map ((key, c) :: ·)
    | none =>
      if key = "Lat" ∨ key = "Lon" then buildColumnasMap rest headers
      else none

/-- `df.rename(columns={v: k for k, v in columnas_map.items()})`: a header
equal to some matched column is renamed to its key; when two keys matched
the same header the later key wins, as in the Python dict comprehension. -/
def renameHeaders (headers : List String) (cmap : List (String × String)) :
    List String :=
  headers.map fun h =>
    match (cmap.filter fun kv => kv.2 = h).getLast? with
    | some kv => kv.1
    | none => h

/-- Python `int(q)`: truncation toward zero. -/
def intTrunc (q : ℚ) : ℤ := q.num.tdiv q.den

/-- The numeric content of a cell (`NaN` for text), used by `Series.max`
over a coerced column. -/
def asNum : Option Val → Option ℚ
  | some (.num q) => some q
  | _ => none

/-- `os.path.splitext(name)[0]`: the name up to its last dot (the
leading-dot special case of `splitext` is outside every claim's inputs). -/
def stemOf (name : String) : String :=
  let r := name.toList.reverse
  if r.contains '.' then ⟨((r.dropWhile fun c => ¬ c = '.').drop 1).reverse⟩
  else name

/-- An uploaded file: its name and either the dataframe `pd.read_excel`
(with the fixed `header=8` preamble offset) produces, or `none` when the
read raises (corrupt/unreadable file). -/
structure PyFile where
  nombre : String
  contenido : Option DataFrame
deriving DecidableEq, Repr

/-- One row of the per-file summary (`resumen_archivos`). -/
structure Resumen where
  archivo : String
  expediente : Option Val
  totalMediciones : ℤ
  maxResultado : Option ℚ
deriving DecidableEq, Repr

/-- Outcome of the per-file body of the `procesar_archivos` loop. -/
inductive ResUno where
  | sinLeer
  | rechazado
  | indexError
  | procesado (df : DataFrame) (res : Resumen)
deriving DecidableEq, Repr

/-- The body of the `procesar_archivos` loop for one file
(src/rni_app_v3.2.py:225-286):
read; drop all-null columns; detect and coerce the index column, filter
out its non-numeric rows and take its maximum as the measurement count;
resolve the semantic columns (mandatory ones reject the file); rename;
attach the constant metadata columns; coerce `Resultado`/`Lat`/`Lon`;
drop the helper column; and build the summary row — whose
`df["Expediente"].iloc[0]` raises `IndexError` when no row survived. -/
def procesarUno (f : PyFile) (ccte provincia localidad expediente : String) :
    ResUno :=
  match f.contenido with
  | none => .sinLeer
  | some df0 =>
    let df1 := dropnaCols df0
    let idxCol := find_index_column df1
    let paso2 : DataFrame × ℤ :=
      match idxCol with
      | none => (df1, (df1.rows.length : ℤ))
      | some c =>
        let nums := (getCol df1 c).map to_numeric_cell
        let n := df1.headers.length
        let dfA : DataFrame :=
          { headers := df1.headers ++ ["_idx_num"],
            rows := (df1.rows.zip nums).map fun rn =>
              rowPad rn.1 n ++ [rn.2.map Val.num] }
        let dfB := { dfA with rows := dfA.rows.filter fun r => (cellAt r n).isSome }
        let total : ℤ :=
          if dfB.rows.isEmpty then (df1.rows.length : ℤ)
          else
            match (nums.filterMap id).max? with
            | some m => intTrunc m
            | none => (df1.rows.length : ℤ)
        (dfB, total)
    let df2 := paso2.1
    match buildColumnasMap mapping_candidates df2.headers with
    | none => .rechazado
    | some cmap =>
      let df3 : DataFrame := { df2 with headers := renameHeaders df2.headers cmap }
      let expedienteVal := if expediente = "" then stemOf f.nombre else expediente
      let df4 := setColConst df3 "CCTE" (some (.str ccte))
      let df5 := setColConst df4 "Provincia" (some (.str provincia))
      let df6 := setColConst df5 "Localidad" (some (.str localidad))
      let df7 := setColConst df6 "Expediente" (some (.str expedienteVal))
      let df8 := setColConst df7 "Nombre Archivo" (some (.str f.nombre))
      let df9 :=
        if df8.headers.contains "Resultado" then
          mapCol df8 "Resultado" fun cell =>
            (extract_numeric_from_text_cell cell).map Val.num
        else df8
      let df10 :=
        if df9.headers.contains "Lat" then
          mapCol df9 "Lat" fun cell => (parse_dms_to_decimal cell).map Val.num
        else df9
      let df11 :=
        if df10.headers.contains "Lon" then
          mapCol df10 "Lon" fun cell => (parse_dms_to_decimal cell).map Val.num
        else df10
      let df12 := dropCol df11 "_idx_num"
      match (getCol df12 "Expediente").head? with
      | none => .indexError
      | some e =>
        .procesado df12
          { archivo := f.nombre
            expediente := e
            totalMediciones := paso2.2
            maxResultado :=
              if df12.headers.contains "Resultado" then
                ((getCol df12 "Resultado").filterMap asNum).max?
              else none }

/-- The uncaught Python exceptions the pipeline can raise. -/
inductive PyExc where
  | indexError
deriving DecidableEq, Repr

/-- The `for file in uploaded_files` loop: unreadable and rejected files
are skipped with a warning, a processed file appends its frame and its
summary row, and the summary-row `IndexError` propagates out uncaught. -/
def procesarLoop (ccte provincia localidad expediente : String) :
    List PyFile → List DataFrame × List Resumen →
    Except PyExc (List DataFrame × List Resumen)
  | [], acc => .ok acc
  | f :: rest, acc =>
    match procesarUno f ccte provincia localidad expediente with
    | .sinLeer => procesarLoop ccte provincia localidad expediente rest acc
    | .rechazado => procesarLoop ccte provincia localidad expediente rest acc
    | .indexError => .error .indexError
    | .procesado df res =>
      procesarLoop ccte provincia localidad expediente rest
        (acc.1 ++ [df], acc.2 ++ [res])

/-- `procesar_archivos` (src/rni_app_v3.2.py:221-290).  The final
`pd.concat(lista_procesados)` is an order-preserving row concatenation, so
the output record batch is represented by the list of per-file frames in
processing order (an empty list is the empty batch the source returns when
no file was usable). -/
def procesar_archivos (files : List PyFile)
    (ccte provincia localidad expediente : String) :
    Except PyExc (List DataFrame × List Resumen) :=
  procesarLoop ccte provincia localidad expediente files ([], [])

/-- The claim's rejection trigger: some mandatory key among
`Fecha`/`Hora`/`Resultado`/`Sonda` has no case-insensitive substring match
among the uploaded file's headers. -/
def faltaMandatorio (headers : List String) : Prop :=
  ∃ kc ∈ mapping_candidates,
    ¬ (kc.1 = "Lat" ∨ kc.1 = "Lon") ∧ findHeaderFor headers kc.2 = none

/-! ## Concrete test data used by the claims -/

/-- A master-table row with only the fields the duration computation
reads. -/
def filaHora (a : String) (f h : Option Nat) : Fila :=
  { nombreArchivo := a, fecha := f, hora := h }

/-- One file, one nominal date, times 23:00:00 and 01:00:00 (in seconds
after midnight). -/
def tablaTrasnoche : List Fila :=
  [filaHora "medicion.xlsx" (some 0) (some 82800),
   filaHora "medicion.xlsx" (some 0) (some 3600)]

/-- Two files on the same date, each spanning one hour
(09:00:00–10:00:00). -/
def tablaDosArchivos : List Fila :=
  [filaHora "f1.xlsx" (some 0) (some 32400), filaHora "f1.xlsx" (some 0) (some 36000),
   filaHora "f2.xlsx" (some 0) (some 32400), filaHora "f2.xlsx" (some 0) (some 36000)]

/-- A group with a single distinct time, and a group with no valid time. -/
def tablaDegenerada : List Fila :=
  [filaHora "f3.xlsx" (some 7) (some 41000), filaHora "f3.xlsx" (some 7) (some 41000),
   filaHora "f4.xlsx" (some 9) none]

/-- An uploaded file whose detected index column (`Nro`) contains no
numeric value, so every row is filtered out before the summary row is
built. -/
def archivoIndiceNoNumerico : PyFile :=
  { nombre := "mediciones.xlsx",
    contenido := some
      { headers := ["Nro", "Fecha", "Hora", "Resultado", "Sonda"],
        rows := [[some (.str "x"), some (.str "01/05/2024"), some (.str "10:00:00"),
                  some (.str "1,2"), some (.str "S1")]] } }

/-- An uploaded file with no header matching the mandatory `Fecha`
field. -/
def archivoSinFecha : PyFile :=
  { nombre := "sinfecha.xlsx",
    contenido := some
      { headers := ["Hora", "Resultado", "Sonda"],
        rows := [[some (.str "10:00:00"), some (.str "1,2"), some (.str "S1")]] } }

/-- A well-formed uploaded file carrying all four mandatory columns and no
`Lat`/`Lon` column. -/
def archivoBueno : PyFile :=
  { nombre := "bueno.xlsx",
    contenido := some
      { headers := ["Fecha", "Hora", "Resultado (V/m)", "Sonda utilizada"],
        rows := [[some (.str "01/05/2024"), some (.str "10:00:00"),
                  some (.str "12,5"), some (.str "S1")]] } }

/-- A two-row master table with localities `A` and `B`. -/
def tablaLocalidades : List Fila :=
  [{ localidad := some "A", nombreArchivo := "a.xlsx" },
   { localidad := some "B", nombreArchivo := "b.xlsx" }]

/-! # Theorems -/

/-! ## Duration aggregation -/

theorem foldl_min_le (t : List Nat) (h : Nat) : List.foldl min h t ≤ h := by
  induction t generalizing h with
  | nil => exact le_refl h
  | cons a t ih => exact le_trans (ih (min h a)) (min_le_left h a)

theorem le_foldl_max (t : List Nat) (h : Nat) : h ≤ List.foldl max h t := by
  induction t generalizing h with
  | nil => exact le_refl h
  | cons a t ih => exact le_trans (le_max_left h a) (ih (max h a))

theorem minHora_le_maxHora (h : Nat) (t : List Nat) : minHora h t ≤ maxHora h t :=
  le_trans (foldl_min_le t h) (le_foldl_max t h)

/-- The midnight-rollover branch of `spanDia` is unreachable: the span from
the group's minimum to its maximum time is never negative, so `spanDia`
agrees with the plain max-minus-min span everywhere. -/
theorem spanDia_eq_specSpan (hs : List Nat) : spanDia hs = specSpan hs := by
  match hs with
  | [] => rfl
  | h :: t =>
    have hle := minHora_le_maxHora h t
    have hnn : ¬ ((maxHora h t : ℤ) - (minHora h t : ℤ) < 0) := by omega
    simp only [spanDia, specSpan, if_neg hnn]

theorem spanDia_nonneg (hs : List Nat) : 0 ≤ spanDia hs := by
  rw [spanDia_eq_specSpan]
  match hs with
  | [] => exact le_refl 0
  | h :: t =>
    have hle := minHora_le_maxHora h t
    simp only [specSpan]
    omega

/-- C1.  The claim predicts `02:00:00` for times `23:00:00` and `01:00:00`
on one nominal date, by a midnight-rollover correction.  The code computes
the span between the group's *minimum* and *maximum* time, which is never
negative, so the `+24h` branch never fires: on that table the code returns
`22:00:00` (79200 seconds), not `02:00:00` (7200 seconds). -/
theorem c1_trasnoche_da_22_horas :
    calcular_tiempo_total_por_archivo tablaTrasnoche = 79200 ∧
    ¬ calcular_tiempo_total_por_archivo tablaTrasnoche = 7200 ∧
    ∀ hs : List Nat, 0 ≤ spanDia hs :=
  ⟨by decide, by decide, spanDia_nonneg⟩

/-- C2.  For every input table, `calcular_tiempo_total_por_archivo` equals
the spec's sum over (file, date) groups of the span from the minimum to the
maximum non-null time; two one-hour files on the same day total two hours;
a single-time group and a no-valid-times group contribute zero. -/
theorem c2_duracion_es_suma_de_spans :
    (∀ df : List Fila,
        calcular_tiempo_total_por_archivo df = duracionSegunSpec df) ∧
    calcular_tiempo_total_por_archivo tablaDosArchivos = 7200 ∧
    calcular_tiempo_total_por_archivo tablaDegenerada = 0 := by
  refine ⟨fun df => ?_, by decide, by decide⟩
  simp only [calcular_tiempo_total_por_archivo, duracionSegunSpec, spanDia_eq_specSpan]

/-! ## Locality deletion -/

/-- C7.  `eliminar_localidad` always leaves exactly the rows whose
`Localidad` differs from the given name, each row verbatim; the reported
action is the empty-table warning, the zero-deletions information message,
or the success count; and with zero matches the table is returned
unchanged.  Checked on a concrete table for both the no-match and the
one-match locality. -/
theorem c7_eliminar_localidad_exacta :
    (∀ (tabla : List Fila) (nombre : String),
        (eliminar_localidad tabla nombre).1 =
          tabla.filter (fun r => ¬ r.localidad = some nombre) ∧
        (eliminar_localidad tabla nombre).2 =
          (if tabla.isEmpty then AccionEliminar.tablaVacia
           else if (tabla.filter fun r => r.localidad = some nombre).length = 0
           then AccionEliminar.noEncontrada
           else AccionEliminar.eliminada
             (tabla.filter fun r => r.localidad = some nombre).length) ∧
        ((tabla.filter fun r => r.localidad = some nombre).length = 0 →
          (eliminar_localidad tabla nombre).1 = tabla)) ∧
    eliminar_localidad tablaLocalidades "C" =
      (tablaLocalidades, AccionEliminar.noEncontrada) ∧
    eliminar_localidad tablaLocalidades "A" =
      ([{ localidad := some "B", nombreArchivo := "b.xlsx" }],
        AccionEliminar.eliminada 1) := by
  refine ⟨fun tabla nombre => ?_, by decide, by decide⟩
  have hfilter :
      (tabla.filter fun r => r.localidad = some nombre).length = 0 →
        tabla.filter (fun r => ¬ r.localidad = some nombre) = tabla := by
    intro hc
    have hnil : tabla.filter (fun r => r.localidad = some nombre) = [] :=
      List.length_eq_zero.mp hc
    have hall := List.filter_eq_nil_iff.mp hnil
    refine List.filter_eq_self.mpr fun a ha => ?_
    simpa using hall a ha
  refine ⟨?_, ?_, fun hc => ?_⟩
  · simp only [eliminar_localidad]
    split_ifs with hv hc
    · have ht : tabla = [] := List.isEmpty_iff.mp hv
      subst ht
      rfl
    · exact (hfilter hc).symm
    · rfl
  · simp only [eliminar_localidad]
    split_ifs <;> rfl
  · by_cases hv : tabla.isEmpty
    · simp only [eliminar_localidad]
      rw [if_pos hv]
    · simp only [eliminar_localidad]
      rw [if_neg hv, if_pos hc]

/-- A closed instance of the universal part of C7's theorem, with its
inner zero-match hypothesis discharged at the concrete table. -/
theorem c7_eliminar_localidad_exacta_witness :
    (eliminar_localidad tablaLocalidades "C").1 =
      tablaLocalidades.filter (fun r => ¬ r.localidad = some "C") ∧
    (eliminar_localidad tablaLocalidades "C").1 = tablaLocalidades :=
  ⟨(c7_eliminar_localidad_exacta.1 tablaLocalidades "C").1,
   (c7_eliminar_localidad_exacta.1 tablaLocalidades "C").2.2 (by decide)⟩

/-! ## Colour scale and percentage of limit -/

/-- C9.  The two colour tables share the same ten bucket boundaries, but
the on-screen indicator classifies the percentage-of-limit value while the
map classifies the raw result: for a record with `Resultado = 87` the
indicator shows the top bucket (red, index 9) and the map point gets the
ninth bucket (orange, index 8) — not the same bucket. -/
theorem c9_semaforo_mapa_divergen :
    limitesDe rangos_colores = limitesDe rangos_colores_map ∧
    color_localidad (max_resultado_pct 87) = "#CC0000" ∧
    color_semaforo (some 87) = (230, 130, 0) ∧
    bucketIdx (limitesDe rangos_colores) (max_resultado_pct 87) = some 9 ∧
    bucketIdx (limitesDe rangos_colores_map) 87 = some 8 := by
  have h100 : (100 : ℚ) ≤ max_resultado_pct 87 := by
    norm_num [max_resultado_pct, constLimite]
  have hge : ∀ b : ℚ, b ≤ 100 → b ≤ max_resultado_pct 87 := fun b hb =>
    le_trans hb h100
  have hnlt : ∀ b : ℚ, b ≤ 100 → ¬ (max_resultado_pct 87 < b) := fun b hb =>
    not_lt.mpr (hge b hb)
  refine ⟨by decide, ?_, by decide, ?_, by decide⟩
  · simp [color_localidad, rangos_colores, enRango, List.find?,
      hge 0 (by norm_num), hge 1 (by norm_num), hge 2 (by norm_num),
      hge 4 (by norm_num), hge 8 (by norm_num), hge 15 (by norm_num),
      hge 20 (by norm_num), hge 35 (by norm_num), hge 50 (by norm_num),
      hge 100 le_rfl,
      hnlt 1 (by norm_num), hnlt 2 (by norm_num), hnlt 4 (by norm_num),
      hnlt 8 (by norm_num), hnlt 15 (by norm_num), hnlt 20 (by norm_num),
      hnlt 35 (by norm_num), hnlt 50 (by norm_num), hnlt 100 le_rfl]
  · simp [bucketIdx, bucketIdxAux, limitesDe, rangos_colores, enRango,
      hge 0 (by norm_num), hge 1 (by norm_num), hge 2 (by norm_num),
      hge 4 (by norm_num), hge 8 (by norm_num), hge 15 (by norm_num),
      hge 20 (by norm_num), hge 35 (by norm_num), hge 50 (by norm_num),
      hge 100 le_rfl,
      hnlt 1 (by norm_num), hnlt 2 (by norm_num), hnlt 4 (by norm_num),
      hnlt 8 (by norm_num), hnlt 15 (by norm_num), hnlt 20 (by norm_num),
      hnlt 35 (by norm_num), hnlt 50 (by norm_num), hnlt 100 le_rfl]

/-- C10.  The percentage of the exposure limit is
`r² / 3770 / 0.20021 × 100` exactly as the reference expression computes
it: in exact arithmetic the formula collapses to `r² · 10⁷ / 75479170`,
and at `r = 87` the code's value coincides with the reference expression
(same literals, same operation order, hence the same value at any floating
precision), namely `261000000 / 260273`. -/
theorem c10_porcentaje_limite :
    (∀ r : ℚ, max_resultado_pct r = r ^ 2 * 10000000 / 75479170) ∧
    max_resultado_pct 87 = referenciaPct87 ∧
    referenciaPct87 = 261000000 / 260273 := by
  refine ⟨fun r => ?_, by norm_num [max_resultado_pct, constLimite, referenciaPct87],
    by norm_num [referenciaPct87]⟩
  unfold max_resultado_pct constLimite
  ring

/-! ## Ingestion pipeline: the uncaught `IndexError` (C8) -/

/-- C8.  The claim says no exception ever escapes `procesar_archivos`.  But
for a readable file whose detected index column has no numeric value, every
row is filtered out and the summary row's `df["Expediente"].iloc[0]` raises
an uncaught `IndexError`; an empty batch, in contrast, does return empty
outputs. -/
theorem c8_index_error_no_capturado :
    procesar_archivos [archivoIndiceNoNumerico] "CABA" "Buenos Aires" "Palermo"
        "EXP-1" = Except.error PyExc.indexError ∧
    ∀ c p l e : String, procesar_archivos [] c p l e = Except.ok ([], []) :=
  ⟨by rfl, fun _ _ _ _ => rfl⟩

/-! ## DMS parsing: the hemisphere group is dead (C4, C5) -/

theorem pyDigit_not_pySpace {c : Char} (hd : pyDigit c = true) :
    pySpace c = false := by
  by_contra hcon
  have hs : pySpace c = true := by simpa using hcon
  simp only [pySpace, Bool.or_eq_true, decide_eq_true_eq, or_assoc] at hs
  rcases hs with h1 | h1 | h1 | h1 | h1 | h1 <;> subst h1 <;>
    exact absurd hd (by decide)

theorem pyDigit_not_hemiChar {c : Char} (hd : pyDigit c = true) :
    hemiChar c = false := by
  by_contra hcon
  have hs : hemiChar c = true := by simpa using hcon
  simp only [hemiChar, Bool.or_eq_true, decide_eq_true_eq, or_assoc] at hs
  rcases hs with h1 | h1 | h1 | h1 | h1 | h1 | h1 | h1 | h1 | h1 <;> subst h1 <;>
    exact absurd hd (by decide)

theorem fracVal_nonneg (ds : List Char) : 0 ≤ fracVal ds := by
  unfold fracVal
  positivity

/-- Every value a `\d+(?:\.\d+)?` group can match is non-negative. -/
theorem numGroupAlts_mem_nonneg {cs : List Char} {q : ℚ} {r : List Char}
    (hmem : (q, r) ∈ numGroupAlts cs) : 0 ≤ q := by
  unfold numGroupAlts at hmem
  repeat' split at hmem
  all_goals
    first
      | exact absurd hmem (List.not_mem_nil _)
      | (simp only [List.mem_cons, List.mem_singleton, List.not_mem_nil, or_false,
           Prod.mk.injEq] at hmem
         rcases hmem with ⟨hq, -⟩ | ⟨hq, -⟩
         · subst hq
           exact add_nonneg (Nat.cast_nonneg _) (fracVal_nonneg _)
         · subst hq
           exact Nat.cast_nonneg _)
      | (simp only [List.mem_singleton, Prod.mk.injEq] at hmem
         obtain ⟨hq, -⟩ := hmem
         subst hq
         exact Nat.cast_nonneg _)

/-- The hemisphere capture of the DMS pattern is dead code: the greedy
`\D*` that precedes it swallows any hemisphere letter (a non-digit), and
since everything after the seconds group is optional nothing ever forces
backtracking, so group 4 is `None` on every match; minutes and seconds are
non-negative group values. -/
theorem matchDMSAt_spec {cs : List Char} {d m s : ℚ} {h : Option Char}
    (hm : matchDMSAt cs = some (d, m, s, h)) : h = none ∧ 0 ≤ m ∧ 0 ≤ s := by
  unfold matchDMSAt at hm
  obtain ⟨⟨d1, r1⟩, -, h1⟩ := List.exists_of_findSome?_eq_some hm
  dsimp only at h1
  rw [Option.bind_eq_some] at h1
  obtain ⟨r2, -, h2⟩ := h1
  obtain ⟨⟨m1, r3⟩, hm1, h3⟩ := List.exists_of_findSome?_eq_some h2
  dsimp only at h3
  rw [Option.bind_eq_some] at h3
  obtain ⟨r4, -, h4⟩ := h3
  obtain ⟨⟨s1, r5⟩, hs1, h5⟩ := List.exists_of_findSome?_eq_some h4
  dsimp only at h5
  rw [Option.some_inj, Prod.mk.injEq, Prod.mk.injEq, Prod.mk.injEq] at h5
  obtain ⟨-, hmeq, hseq, hheq⟩ := h5
  refine ⟨?_, hmeq ▸ numGroupAlts_mem_nonneg hm1,
    hseq ▸ numGroupAlts_mem_nonneg hs1⟩
  rw [← hheq]
  rcases hr6 : r5.dropWhile (fun c => ¬ pyDigit c) with - | ⟨c0, t0⟩
  · simp [hr6]
  · have hc0 : pyDigit c0 = true := by
      have hhead := List.head?_dropWhile_not (fun c => decide (¬ pyDigit c = true)) r5
      rw [show r5.dropWhile (fun c => decide (¬ pyDigit c = true)) = c0 :: t0 from hr6]
        at hhead
      simpa using hhead
    have hns : pySpace c0 = false := pyDigit_not_pySpace hc0
    have hnh : hemiChar c0 = false := pyDigit_not_hemiChar hc0
    simp [hr6, List.dropWhile_cons, hns, hnh]

/-- `re.search` never captures a hemisphere letter either. -/
theorem searchDMS_spec {cs : List Char} {d m s : ℚ} {h : Option Char}
    (hs : searchDMS cs = some (d, m, s, h)) : h = none ∧ 0 ≤ m ∧ 0 ≤ s := by
  induction cs with
  | nil => simp [searchDMS] at hs
  | cons c t ih =>
    rw [searchDMS] at hs
    rcases hmm : matchDMSAt (c :: t) with - | r <;> rw [hmm] at hs <;>
      dsimp only at hs
    · exact ih hs
    · rw [Option.some_inj] at hs
      subst hs
      exact matchDMSAt_spec hmm

/-- Evaluation of `parse_dms_to_decimal` on a string that is not a plain
float but matches the DMS pattern: since the hemisphere group is always
`None`, the negation branch never runs and the result is the bare
`|deg| + min/60 + sec/3600`. -/
theorem parse_dms_str_eval (s : String) (d m sec : ℚ) (h : Option Char)
    (hf : pyFloat s = none)
    (hd : searchDMS (commaToDot (stripChars s.toList)) = some (d, m, sec, h)) :
    parse_dms_to_decimal (some (.str s)) = some (|d| + m / 60 + sec / 3600) := by
  obtain ⟨hh, -, -⟩ := searchDMS_spec hd
  subst hh
  simp only [parse_dms_to_decimal, hf, hd]
  simp

/-- C4.  The claim: a DMS cell `"D M S H"` is negated exactly when `H` is
`S`, `W` or `O`.  The code never negates: on `"34 36 56 S"` it returns the
positive `34 + 36/60 + 56/3600 = 15577/450` instead of its negation,
because the regex's greedy `\D*` consumes the hemisphere letter before the
optional capture group can see it. -/
theorem c4_hemisferio_sur_no_negado :
    parse_dms_to_decimal (some (.str "34 36 56 S")) = some (15577 / 450) ∧
    ¬ parse_dms_to_decimal (some (.str "34 36 56 S")) = some (-(15577 / 450)) := by
  have heval := parse_dms_str_eval "34 36 56 S" (1 * 34) 36 56 none rfl rfl
  rw [heval]
  constructor
  · rw [Option.some_inj]
    rw [abs_of_nonneg (by norm_num : (0 : ℚ) ≤ 1 * 34)]
    norm_num
  · intro hcon
    rw [Option.some_inj] at hcon
    rw [abs_of_nonneg (by norm_num : (0 : ℚ) ≤ 1 * 34)] at hcon
    norm_num at hcon

/-- C5 counterexample.  The claim: with no hemisphere letter, the sign of a
negative degrees literal is preserved.  On `"-34 36 56"` the code applies
`abs` to the degrees group and returns the positive `15577/450`. -/
theorem c5_contraejemplo_grados_negativos :
    parse_dms_to_decimal (some (.str "-34 36 56")) = some (15577 / 450) ∧
    (0 : ℚ) < 15577 / 450 := by
  have heval := parse_dms_str_eval "-34 36 56" (-1 * 34) 36 56 none rfl rfl
  rw [heval]
  constructor
  · rw [Option.some_inj]
    rw [show |(-1 : ℚ) * 34| = 34 by rw [abs_of_nonpos (by norm_num)]; norm_num]
    norm_num
  · norm_num

/-- C5 amended.  Whenever the DMS pattern matches — hemisphere letter
present in the source text or not — the result is `|D| + M/60 + S/3600`,
which is non-negative: the sign of a negative degrees literal is discarded
by the absolute value rather than preserved, and the hemisphere group never
fires. -/
theorem c5_dms_sin_hemisferio_no_negativo (s : String) (d m sec : ℚ)
    (h : Option Char) (hf : pyFloat s = none)
    (hd : searchDMS (commaToDot (stripChars s.toList)) = some (d, m, sec, h)) :
    parse_dms_to_decimal (some (.str s)) = some (|d| + m / 60 + sec / 3600) ∧
    0 ≤ |d| + m / 60 + sec / 3600 := by
  obtain ⟨-, hm, hsec⟩ := searchDMS_spec hd
  exact ⟨parse_dms_str_eval s d m sec h hf hd,
    add_nonneg (add_nonneg (abs_nonneg d) (div_nonneg hm (by norm_num)))
      (div_nonneg hsec (by norm_num))⟩

/-- Closed instance of C5's amended theorem at the concrete cell
`"-34 36 56"`, hypotheses discharged by computation. -/
theorem c5_dms_sin_hemisferio_no_negativo_witness :
    parse_dms_to_decimal (some (.str "-34 36 56")) =
      some (|(-1 : ℚ) * 34| + 36 / 60 + 56 / 3600) ∧
    0 ≤ |(-1 : ℚ) * 34| + 36 / 60 + 56 / 3600 :=
  c5_dms_sin_hemisferio_no_negativo "-34 36 56" ((-1) * 34) 36 56 none rfl rfl

/-! ## Numeric extraction (C6) -/

theorem commaToDot_pyDigit (c : Char) :
    pyDigit (if c = ',' then '.' else c) = pyDigit c := by
  by_cases h : c = ','
  · subst h
    decide
  · rw [if_neg h]

theorem takeWhile_eq_nil_of_false {p : Char → Bool} {l : List Char}
    (h : ∀ c ∈ l, p c = false) : l.takeWhile p = [] := by
  cases l with
  | nil => rfl
  | cons a t =>
    rw [List.takeWhile_cons, h a (List.mem_cons_self a t)]
    rfl

theorem signSplit_snd_sub {cs : List Char} {c : Char}
    (hc : c ∈ (signSplit cs).2) : c ∈ cs := by
  unfold signSplit at hc
  cases cs with
  | nil => simp at hc
  | cons a t =>
    dsimp only at hc
    split_ifs at hc
    · exact List.mem_cons_of_mem a hc
    · exact List.mem_cons_of_mem a hc
    · exact hc

theorem matchNumAt_none_of_no_digit {cs : List Char}
    (h : ∀ c ∈ cs, pyDigit c = false) : matchNumAt cs = none := by
  have htd : takeDigits (signSplit cs).2 = none := by
    unfold takeDigits
    rw [takeWhile_eq_nil_of_false fun c hc => h c (signSplit_snd_sub hc)]
    rfl
  simp only [matchNumAt, htd]

theorem searchNum_none_of_no_digit {cs : List Char}
    (h : ∀ c ∈ cs, pyDigit c = false) : searchNum cs = none := by
  induction cs with
  | nil => rfl
  | cons c t ih =>
    simp only [searchNum,
      matchNumAt_none_of_no_digit h]
    exact ih fun x hx => h x (List.mem_cons_of_mem _ hx)

/-- `takeDigits` on a digit run whose continuation does not begin with a
digit consumes exactly the run. -/
theorem takeDigits_exact {ds rest : List Char} (hne : ds ≠ [])
    (hds : ∀ c ∈ ds, pyDigit c = true)
    (hrest : ∀ c, rest.head? = some c → pyDigit c = false) :
    takeDigits (ds ++ rest) = some (ds, rest) := by
  have h2 : rest.takeWhile pyDigit = [] := by
    cases rest with
    | nil => rfl
    | cons a t =>
      rw [List.takeWhile_cons, hrest a rfl]
      rfl
  have h1 : (ds ++ rest).takeWhile pyDigit = ds := by
    rw [List.takeWhile_append_of_pos hds, h2, List.append_nil]
  simp only [takeDigits, h1]
  rw [if_neg fun hcon => hne (List.isEmpty_iff.mp hcon)]
  rw [List.drop_left]

theorem pyDigit_ne_sign {c : Char} (h : pyDigit c = true) :
    ¬ c = '-' ∧ ¬ c = '+' := by
  constructor <;> intro heq <;> subst heq <;> exact absurd h (by decide)

/-- The numeric pattern matched at the start of
`sign ++ digits ++ '.' ++ digits ++ rest`, where `rest` does not begin
with a digit or an exponent letter, consumes exactly the literal. -/
theorem matchNumAt_decimal (sgn : ℚ) (sgnChars ds fs rest : List Char)
    (hsgn : (sgnChars = [] ∧ sgn = 1) ∨ (sgnChars = ['-'] ∧ sgn = -1) ∨
      (sgnChars = ['+'] ∧ sgn = 1))
    (hdne : ds ≠ []) (hds : ∀ c ∈ ds, pyDigit c = true)
    (hfne : fs ≠ []) (hfs : ∀ c ∈ fs, pyDigit c = true)
    (hrest : ∀ c, rest.head? = some c →
      pyDigit c = false ∧ ¬ c = 'e' ∧ ¬ c = 'E') :
    matchNumAt (sgnChars ++ (ds ++ '.' :: (fs ++ rest))) =
      some (sgn * ((digitsVal ds : ℚ) + fracVal fs), rest) := by
  have hss : signSplit (sgnChars ++ (ds ++ '.' :: (fs ++ rest))) =
      (sgn, ds ++ '.' :: (fs ++ rest)) := by
    rcases hsgn with ⟨he, hv⟩ | ⟨he, hv⟩ | ⟨he, hv⟩ <;> subst he <;> subst hv
    · cases ds with
      | nil => exact absurd rfl hdne
      | cons d0 dt =>
        obtain ⟨hm, hp⟩ := pyDigit_ne_sign (hds d0 (List.mem_cons_self d0 dt))
        simp only [List.nil_append, List.cons_append, signSplit]
        rw [if_neg hm, if_neg hp]
    · rfl
    · rfl
  have htd1 : takeDigits (ds ++ '.' :: (fs ++ rest)) =
      some (ds, '.' :: (fs ++ rest)) :=
    takeDigits_exact hdne hds fun c hc => by
      rw [List.head?_cons, Option.some_inj] at hc
      subst hc
      decide
  have htd2 : takeDigits (fs ++ rest) = some (fs, rest) :=
    takeDigits_exact hfne hfs fun c hc => (hrest c hc).1
  simp only [matchNumAt, hss, htd1, htd2, if_true]
  rcases hr : rest with - | ⟨e, r4⟩
  · rfl
  · have hx := hrest e (by rw [hr]; rfl)
    dsimp only
    rw [if_neg fun hcon => hcon.elim (fun h1 => hx.2.1 h1) fun h2 => hx.2.2 h2]

theorem matchNumAt_nil : matchNumAt [] = none := rfl

theorem searchNum_of_matchNumAt {cs : List Char} {r : ℚ × List Char}
    (h : matchNumAt cs = some r) : searchNum cs = some r := by
  cases cs with
  | nil => rw [matchNumAt_nil] at h; cases h
  | cons c t => simp only [searchNum, h]

theorem commaToDot_of_digits {l : List Char} (h : ∀ c ∈ l, pyDigit c = true) :
    commaToDot l = l := by
  unfold commaToDot
  have hid : ∀ c ∈ l, (if c = ',' then '.' else c) = c := by
    intro c hc
    rw [if_neg]
    intro hcon
    subst hcon
    exact absurd (h ',' hc) (by decide)
  rw [List.map_congr_left hid, List.map_id']

/-- C6.  `extract_numeric_from_text` replaces decimal commas by points and
takes the first match of the signed-decimal-with-optional-exponent
pattern: a cell without any digit yields null (and by totality of the
model, never an error), while a leading `sign digits . digits` literal
followed by noise that opens with neither a digit nor an exponent letter
is recovered exactly. -/
theorem c6_extraccion_numerica :
    (∀ s : String, (∀ c ∈ s.toList, pyDigit c = false) →
      extract_numeric_cell s = none) ∧
    (∀ (sgn : ℚ) (sgnChars ds fs rest : List Char),
      ((sgnChars = [] ∧ sgn = 1) ∨ (sgnChars = ['-'] ∧ sgn = -1) ∨
        (sgnChars = ['+'] ∧ sgn = 1)) →
      ds ≠ [] → (∀ c ∈ ds, pyDigit c = true) →
      fs ≠ [] → (∀ c ∈ fs, pyDigit c = true) →
      (∀ c, rest.head? = some c → pyDigit c = false ∧ ¬ c = 'e' ∧ ¬ c = 'E') →
      extract_numeric_cell ⟨sgnChars ++ (ds ++ '.' :: (fs ++ rest))⟩ =
        some (sgn * ((digitsVal ds : ℚ) + fracVal fs))) := by
  constructor
  · intro s h
    unfold extract_numeric_cell
    rw [searchNum_none_of_no_digit ?_]
    · rfl
    · intro c hc
      unfold commaToDot at hc
      rw [List.mem_map] at hc
      obtain ⟨c0, hc0, hceq⟩ := hc
      rw [← hceq, commaToDot_pyDigit]
      exact h c0 hc0
  · intro sgn sgnChars ds fs rest hsgn hdne hds hfne hfs hrest
    unfold extract_numeric_cell
    have hlist : (String.mk (sgnChars ++ (ds ++ '.' :: (fs ++ rest)))).toList =
        sgnChars ++ (ds ++ '.' :: (fs ++ rest)) := rfl
    rw [hlist]
    have hsgnmap : commaToDot sgnChars = sgnChars := by
      rcases hsgn with ⟨he, -⟩ | ⟨he, -⟩ | ⟨he, -⟩ <;> subst he <;> rfl
    have hmap : commaToDot (sgnChars ++ (ds ++ '.' :: (fs ++ rest))) =
        sgnChars ++ (ds ++ '.' :: (fs ++ commaToDot rest)) := by
      unfold commaToDot at hsgnmap ⊢
      rw [List.map_append, List.map_append, List.map_cons, hsgnmap,
        List.map_append]
      rw [show List.map (fun c => if c = ',' then '.' else c) ds = ds from
        commaToDot_of_digits hds]
      rw [show List.map (fun c => if c = ',' then '.' else c) fs = fs from
        commaToDot_of_digits hfs]
      rfl
    rw [hmap]
    rw [searchNum_of_matchNumAt (matchNumAt_decimal sgn sgnChars ds fs
      (commaToDot rest) hsgn hdne hds hfne hfs ?_)]
    · rfl
    · intro c hc
      unfold commaToDot at hc
      rw [List.head?_map] at hc
      rcases hh : rest.head? with - | c0 <;> rw [hh] at hc
      · cases hc
      · rw [Option.map_some', Option.some_inj] at hc
        obtain ⟨h1, h2, h3⟩ := hrest c0 hh
        subst hc
        by_cases hcomma : c0 = ','
        · rw [if_pos hcomma]
          exact ⟨by decide, by decide, by decide⟩
        · rw [if_neg hcomma]
          exact ⟨h1, h2, h3⟩

/-- Closed instance of C6's theorem: a digit-free cell yields null, and
`"-12.5 V/m"` yields exactly `-12.5`. -/
theorem c6_extraccion_numerica_witness :
    extract_numeric_cell "abc" = none ∧
    extract_numeric_cell "-12.5 V/m" = some (-(25 : ℚ) / 2) := by
  constructor
  · exact c6_extraccion_numerica.1 "abc" (by decide)
  · have h := c6_extraccion_numerica.2 (-1) ['-'] ['1', '2'] ['5']
      [' ', 'V', '/', 'm'] (Or.inr (Or.inl ⟨rfl, rfl⟩)) (by decide) (by decide)
      (by decide) (by decide) ?_
    · rw [show ("-12.5 V/m" : String) =
        ⟨['-'] ++ (['1', '2'] ++ '.' :: (['5'] ++ [' ', 'V', '/', 'm']))⟩ from rfl]
      rw [h]
      rw [Option.some_inj]
      unfold fracVal
      rw [show (digitsVal ['1', '2'] : ℕ) = 12 from rfl,
        show (digitsVal ['5'] : ℕ) = 5 from rfl]
      norm_num
    · intro c hc
      rw [List.head?_cons, Option.some_inj] at hc
      subst hc
      exact ⟨by decide, by decide, by decide⟩

end RNI

namespace RNI

/-! ## Ingestion pipeline: whole-file rejection on a missing mandatory
column (C3) -/

theorem dropnaCols_headers_mem {df : DataFrame} {h : String}
    (hm : h ∈ (dropnaCols df).headers) : h ∈ df.headers := by
  unfold dropnaCols at hm
  dsimp only at hm
  rw [List.mem_filterMap] at hm
  obtain ⟨j, -, hj⟩ := hm
  exact List.get?_mem hj

/-- The helper column name `_idx_num` matches no candidate fragment of any
semantic key. -/
theorem idx_num_no_match :
    ∀ kc ∈ mapping_candidates, ∀ cand ∈ kc.2,
      lowerContains "_idx_num" cand = false := by decide

/-- A key with no matching header keeps having none over a header list that
only adds the `_idx_num` helper column and drops columns. -/
theorem findHeaderFor_none_sub {hs1 hs2 cands : List String}
    (hn : findHeaderFor hs1 cands = none)
    (hsub : ∀ h ∈ hs2, h ∈ hs1 ∨ h = "_idx_num")
    (hidx : ∀ cand ∈ cands, lowerContains "_idx_num" cand = false) :
    findHeaderFor hs2 cands = none := by
  unfold findHeaderFor at hn ⊢
  rw [List.find?_eq_none] at hn ⊢
  intro h hmem
  rcases hsub h hmem with hin | heq
  · exact hn h hin
  · subst heq
    intro hcon
    rw [List.any_eq_true] at hcon
    obtain ⟨cand, hc, hl⟩ := hcon
    rw [hidx cand hc] at hl
    cases hl

/-- When some mandatory key has no matching header, the `columnas_map`
loop aborts. -/
theorem buildColumnasMap_none :
    ∀ (l : List (String × List String)) (headers : List String),
      (∃ kc ∈ l, ¬ (kc.1 = "Lat" ∨ kc.1 = "Lon") ∧
        findHeaderFor headers kc.2 = none) →
      buildColumnasMap l headers = none := by
  intro l
  induction l with
  | nil =>
    intro headers h
    simp at h
  | cons kc0 rest ih =>
    obtain ⟨k0, c0⟩ := kc0
    intro headers h
    obtain ⟨kc, hmem, hnl, hn⟩ := h
    rw [List.mem_cons] at hmem
    rcases hmem with heq | hmem
    · subst heq
      simp only [buildColumnasMap, hn]
      rw [if_neg hnl]
    · cases hF : findHeaderFor headers c0 with
      | none =>
        simp only [buildColumnasMap, hF]
        by_cases hL : k0 = "Lat" ∨ k0 = "Lon"
        · rw [if_pos hL]
          exact ih headers ⟨kc, hmem, hnl, hn⟩
        · rw [if_neg hL]
      | some c =>
        simp only [buildColumnasMap, hF]
        rw [ih headers ⟨kc, hmem, hnl, hn⟩]
        rfl

/-- A readable file with a missing mandatory column is rejected by the
per-file body: the columns the mapping scan sees are the original columns
minus the all-null ones, plus at most the non-matching `_idx_num`. -/
theorem procesarUno_rechazado {nombre : String} {df : DataFrame}
    (c p l e : String) (hf : faltaMandatorio df.headers) :
    procesarUno ⟨nombre, some df⟩ c p l e = ResUno.rechazado := by
  obtain ⟨kc, hmem, hnl, hn⟩ := hf
  have hidx := idx_num_no_match kc hmem
  unfold procesarUno
  dsimp only
  cases hix : find_index_column (dropnaCols df) with
  | none =>
    dsimp only
    rw [buildColumnasMap_none mapping_candidates _ ⟨kc, hmem, hnl,
      findHeaderFor_none_sub hn
        (fun h hm => Or.inl (dropnaCols_headers_mem hm)) hidx⟩]
  | some cidx =>
    dsimp only
    rw [buildColumnasMap_none mapping_candidates _ ⟨kc, hmem, hnl,
      findHeaderFor_none_sub hn ?_ hidx⟩]
    intro h hm
    rw [List.mem_append] at hm
    rcases hm with hm | hm
    · exact Or.inl (dropnaCols_headers_mem hm)
    · rw [List.mem_singleton] at hm
      exact Or.inr hm

/-- A file the body rejects contributes nothing to the batch loop,
whatever comes before or after it and whatever was accumulated. -/
theorem procesarLoop_skip {c p l e : String} {f : PyFile}
    (hr : procesarUno f c p l e = ResUno.rechazado) :
    ∀ (pre post : List PyFile) (acc : List DataFrame × List Resumen),
      procesarLoop c p l e (pre ++ f :: post) acc =
        procesarLoop c p l e (pre ++ post) acc := by
  intro pre
  induction pre with
  | nil =>
    intro post acc
    simp only [List.nil_append, procesarLoop, hr]
  | cons g gs ih =>
    intro post acc
    simp only [List.cons_append, procesarLoop]
    cases hg : procesarUno g c p l e <;> dsimp only
    · exact ih post _
    · exact ih post _
    · exact ih post _

/-- C3.  A readable uploaded file whose headers contain no
case-insensitive substring match for some mandatory key
(`Fecha`/`Hora`/`Resultado`/`Sonda`) is rejected whole: the batch result
is exactly the result of processing the batch without that file — zero
rows and no summary row from it, the other files unaffected.  Checked
concretely on a batch of a Fecha-less file and a well-formed file without
`Lat`/`Lon` columns, which is not rejected. -/
theorem c3_rechazo_archivo_sin_columna_obligatoria :
    (∀ (pre post : List PyFile) (nombre : String) (df : DataFrame)
        (c p l e : String), faltaMandatorio df.headers →
        procesar_archivos (pre ++ ⟨nombre, some df⟩ :: post) c p l e =
          procesar_archivos (pre ++ post) c p l e) ∧
    procesar_archivos [archivoSinFecha, archivoBueno] "CABA" "CABA" "Palermo"
        "EXP-9" =
      procesar_archivos [archivoBueno] "CABA" "CABA" "Palermo" "EXP-9" ∧
    (procesar_archivos [archivoBueno] "CABA" "CABA" "Palermo" "EXP-9").map
        (fun out => (out.1.length, out.2.map (·.archivo))) =
      Except.ok (1, ["bueno.xlsx"]) := by
  refine ⟨fun pre post nombre df c p l e hf => ?_, by rfl, by rfl⟩
  unfold procesar_archivos
  exact procesarLoop_skip (procesarUno_rechazado c p l e hf) pre post ([], [])

/-- Closed instance of C3's universal part: dropping the Fecha-less file
from a concrete batch leaves the result unchanged, the missing-mandatory
hypothesis discharged by computation. -/
theorem c3_rechazo_archivo_sin_columna_obligatoria_witness :
    procesar_archivos ([] ++ archivoSinFecha :: [archivoBueno]) "CABA" "CABA"
        "Palermo" "EXP-9" =
      procesar_archivos ([] ++ [archivoBueno]) "CABA" "CABA" "Palermo"
        "EXP-9" :=
  c3_rechazo_archivo_sin_columna_obligatoria.1 [] [archivoBueno]
    "sinfecha.xlsx"
    { headers := ["Hora", "Resultado", "Sonda"],
      rows := [[some (.str "10:00:00"), some (.str "1,2"), some (.str "S1")]] }
    "CABA" "CABA" "Palermo" "EXP-9"
    ⟨("Fecha", ["fecha"]), by decide, by decide, by decide⟩

end RNI
